import Mathlib

/-!
Verification of the crosh proxy core (internal/proxy/subscription.go and
internal/proxy/xray.go) against its natural-language specification.

Go strings are modelled as Lean `String`/`List Char`; raw byte sequences
(base64 output) are modelled as `List Nat` with each entry < 256. Go `int`
is modelled as `Int`. Library calls (base64 decoding, JSON unmarshalling,
URL unescaping, `fmt.Sscanf "%d"`) are given executable models matching the
library behaviour on the inputs the repository feeds them; external effects
(TCP dial outcomes, HTTP download outcomes, YAML unmarshalling, process
signals, the file system) are injected as explicit parameters.
-/

namespace Crosh

/-- Node mirrors the `Node` struct of subscription.go. -/
structure Node where
  name : String := ""
  type : String := ""
  server : String := ""
  port : Int := 0
  uuid : String := ""
  password : String := ""
  network : String := ""
  security : String := ""
  tls : String := ""
  sni : String := ""
  latency : Int := 0
deriving DecidableEq, Repr

/-- Model of Go `strings.HasPrefix` over character lists. -/
def startsWithL : List Char → List Char → Bool
  | [], _ => true
  | _ :: _, [] => false
  | p :: ps, c :: cs => p = c && startsWithL ps cs

/-- Model of Go `strings.Contains` over character lists. -/
def containsL (s pat : List Char) : Bool :=
  startsWithL pat s ||
    (match s with
     | [] => false
     | _ :: rest => containsL rest pat)

/-- Model of Go `strings.TrimPrefix` over character lists. -/
def trimHead (pat s : List Char) : List Char :=
  if startsWithL pat s then s.drop pat.length else s

/-- Model of Go `strings.SplitN s sep 2` for a one-character separator:
`some (before, after)` splits at the first occurrence, `none` when the
separator is absent (the length-1 case of SplitN). -/
def splitFirst {α : Type} [DecidableEq α] (c : α) : List α → Option (List α × List α)
  | [] => none
  | x :: xs =>
    if x = c then some ([], xs)
    else (splitFirst c xs).map (fun pr => (x :: pr.1, pr.2))

/-- Model of Go `strings.Split` for a one-character separator. -/
def splitAll (c : Char) : List Char → List (List Char)
  | [] => [[]]
  | x :: xs =>
    let r := splitAll c xs
    if x = c then [] :: r
    else
      match r with
      | [] => [[x]]
      | h :: t => (x :: h) :: t

/-- ASCII whitespace as recognised by Go `strings.TrimSpace` on the
subscription inputs in question. -/
def isSpaceCh (c : Char) : Bool :=
  c = ' ' || c = '\t' || c = '\n' || c = '\r' || c = '\x0b' || c = '\x0c'

/-- Model of Go `strings.TrimSpace` over character lists. -/
def trimSpaceL (l : List Char) : List Char :=
  ((l.dropWhile isSpaceCh).reverse.dropWhile isSpaceCh).reverse

/-- Value of a hexadecimal digit character, if it is one. -/
def hexDigit (c : Char) : Option Nat :=
  if '0' ≤ c ∧ c ≤ '9' then some (c.toNat - '0'.toNat)
  else if 'a' ≤ c ∧ c ≤ 'f' then some (c.toNat - 'a'.toNat + 10)
  else if 'A' ≤ c ∧ c ≤ 'F' then some (c.toNat - 'A'.toNat + 10)
  else none

/-- Model of Go `url.QueryUnescape`: percent escapes are decoded, `+`
becomes a space, malformed escapes yield `none` (the Go error case). -/
def unescapeL : List Char → Option (List Char)
  | [] => some []
  | '%' :: a :: b :: rest =>
    match hexDigit a, hexDigit b with
    | some hi, some lo => (unescapeL rest).map (Char.ofNat (hi * 16 + lo) :: ·)
    | _, _ => none
  | '%' :: _ => none
  | '+' :: rest => (unescapeL rest).map (' ' :: ·)
  | c :: rest => (unescapeL rest).map (c :: ·)

/-- Numeric value of a leading run of decimal digits. -/
def digitsToNat (ds : List Char) : Nat :=
  ds.foldl (fun acc c => acc * 10 + (c.toNat - '0'.toNat)) 0

/-- Model of the `fmt.Sscanf s "%d" and p` idiom used by the URL parsers:
leading whitespace is skipped, an optional sign and a digit run are read,
and when no digit is present the scanned variable keeps its zero value. -/
def sscanfInt (l : List Char) : Int :=
  let l := l.dropWhile isSpaceCh
  match l with
  | '-' :: rest =>
    let ds := rest.takeWhile Char.isDigit
    if ds.isEmpty then 0 else -(digitsToNat ds : Int)
  | '+' :: rest =>
    let ds := rest.takeWhile Char.isDigit
    if ds.isEmpty then 0 else (digitsToNat ds : Int)
  | _ =>
    let ds := l.takeWhile Char.isDigit
    if ds.isEmpty then 0 else (digitsToNat ds : Int)

/-- One query segment of Go `url.ParseQuery`: empty and semicolon-bearing
segments are skipped, the segment is cut at the first `=`, and both halves
are query-unescaped (an unescape failure skips the segment). -/
def parseQuerySeg (seg : List Char) : Option (String × String) :=
  if seg.isEmpty then none
  else if seg.contains ';' then none
  else
    let pr := match splitFirst '=' seg with
      | none => (seg, ([] : List Char))
      | some p => p
    match unescapeL pr.1, unescapeL pr.2 with
    | some k, some v => some (String.mk k, String.mk v)
    | _, _ => none

/-- Model of Go `url.ParseQuery` restricted to what parseVLessURL reads:
the key/value pairs in encounter order. -/
def parseQueryL (l : List Char) : List (String × String) :=
  (splitAll '&' l).filterMap parseQuerySeg

/-- First value recorded for a key, as `params[k] = v[0]` reads it. -/
def queryGet (q : List (String × String)) (k : String) : Option String :=
  (q.find? (fun p => p.1 = k)).map (fun p => p.2)

/-- parseVLessURL of subscription.go: `vless://uuid@server:port?params#name`. -/
def parseVLessURL (s : String) : Except String Node :=
  let l0 := trimHead "vless://".toList s.toList
  let p1 := match splitFirst '#' l0 with
    | some (a, frag) => (a, ((unescapeL frag).map String.mk).getD "")
    | none => (l0, "")
  let p2 := match splitFirst '?' p1.1 with
    | some (a, q) => (a, parseQueryL q)
    | none => (p1.1, [])
  match splitFirst '@' p2.1 with
  | none => Except.error "invalid vless URL format"
  | some (uuid, rest) =>
    match splitFirst ':' rest with
    | none => Except.error "invalid vless server:port format"
    | some (server, portStr) =>
      Except.ok
        { type := "vless", name := p1.2, server := String.mk server,
          port := sscanfInt portStr, uuid := String.mk uuid,
          network := (queryGet p2.2 "type").getD "",
          security := (queryGet p2.2 "security").getD "" }

/-- parseTrojanURL of subscription.go: `trojan://password@server:port?params#name`
(query parameters are split off and discarded). -/
def parseTrojanURL (s : String) : Except String Node :=
  let l0 := trimHead "trojan://".toList s.toList
  let p1 := match splitFirst '#' l0 with
    | some (a, frag) => (a, ((unescapeL frag).map String.mk).getD "")
    | none => (l0, "")
  let l2 := match splitFirst '?' p1.1 with
    | some (a, _) => a
    | none => p1.1
  match splitFirst '@' l2 with
  | none => Except.error "invalid trojan URL format"
  | some (password, rest) =>
    match splitFirst ':' rest with
    | none => Except.error "invalid trojan server:port format"
    | some (server, portStr) =>
      Except.ok
        { type := "trojan", name := p1.2, server := String.mk server,
          port := sscanfInt portStr, password := String.mk password }

/-- Digit value of a character in the standard base64 alphabet. -/
def b64DigitStd (c : Char) : Option Nat :=
  if 'A' ≤ c ∧ c ≤ 'Z' then some (c.toNat - 'A'.toNat)
  else if 'a' ≤ c ∧ c ≤ 'z' then some (c.toNat - 'a'.toNat + 26)
  else if '0' ≤ c ∧ c ≤ '9' then some (c.toNat - '0'.toNat + 52)
  else if c = '+' then some 62
  else if c = '/' then some 63
  else none

/-- Digit value of a character in the URL-safe base64 alphabet. -/
def b64DigitUrl (c : Char) : Option Nat :=
  if 'A' ≤ c ∧ c ≤ 'Z' then some (c.toNat - 'A'.toNat)
  else if 'a' ≤ c ∧ c ≤ 'z' then some (c.toNat - 'a'.toNat + 26)
  else if '0' ≤ c ∧ c ≤ '9' then some (c.toNat - '0'.toNat + 52)
  else if c = '-' then some 62
  else if c = '_' then some 63
  else none

/-- Model of Go `base64.(Std|URL)Encoding.DecodeString`, parameterised by
the alphabet: the input is consumed in four-character blocks, the final
block may carry one or two `=` padding characters, and any other shape or
out-of-alphabet character is a decode error. -/
def base64Decode (digit : Char → Option Nat) : List Char → Option (List Nat)
  | [] => some []
  | a :: b :: c :: d :: rest =>
    match digit a, digit b with
    | some va, some vb =>
      if c = '=' ∧ d = '=' ∧ rest = [] then
        some [va * 4 + vb / 16]
      else
        match digit c with
        | some vc =>
          if d = '=' ∧ rest = [] then
            some [va * 4 + vb / 16, (vb % 16) * 16 + vc / 4]
          else
            match digit d with
            | some vd =>
              (base64Decode digit rest).map
                (fun bs => (va * 4 + vb / 16) :: ((vb % 16) * 16 + vc / 4) ::
                           ((vc % 4) * 64 + vd) :: bs)
            | none => none
        | none => none
    | _, _ => none
  | _ => none

/-- Go `string(bytes)` conversion: each byte becomes one code point. -/
def bytesToString (bs : List Nat) : String :=
  String.mk (bs.map Char.ofNat)

/-- parseShadowsocksURL of subscription.go:
`ss://base64(method:password)@server:port#name`, trying the standard
base64 alphabet first and the URL-safe alphabet as a fallback. -/
def parseShadowsocksURL (s : String) : Except String Node :=
  let l0 := trimHead "ss://".toList s.toList
  let p1 := match splitFirst '#' l0 with
    | some (a, frag) => (a, ((unescapeL frag).map String.mk).getD "")
    | none => (l0, "")
  match splitFirst '@' p1.1 with
  | none => Except.error "invalid shadowsocks URL format"
  | some (credSeg, rest) =>
    let decoded := match base64Decode b64DigitStd credSeg with
      | some bs => some bs
      | none => base64Decode b64DigitUrl credSeg
    match decoded with
    | none => Except.error "failed to decode shadowsocks credentials"
    | some bs =>
      match splitFirst (58 : Nat) bs with
      | none => Except.error "invalid shadowsocks credentials format"
      | some (m, p) =>
        match splitFirst ':' rest with
        | none => Except.error "invalid shadowsocks server:port format"
        | some (server, portStr) =>
          Except.ok
            { type := "ss", name := p1.2, server := String.mk server,
              port := sscanfInt portStr, password := bytesToString p,
              security := bytesToString m }

/-- JSON values as Go `encoding/json` unmarshals them into
`map[string]interface\x7b\x7d`; numbers are restricted to integers, which
covers every field the vmess parser reads. -/
inductive Json where
  | null : Json
  | bool : Bool → Json
  | num : Int → Json
  | str : String → Json
  | arr : List Json → Json
  | obj : List (String × Json) → Json
deriving Repr

/-- Whitespace skipping for the JSON reader. -/
def jsonSkipWs (l : List Char) : List Char :=
  l.dropWhile (fun c => c = ' ' || c = '\n' || c = '\t' || c = '\r')

/-- JSON string body reader (after the opening quote), with the basic
escapes; returns the contents and the remainder after the closing quote. -/
def jsonReadStr : List Char → Option (List Char × List Char)
  | [] => none
  | '"' :: rest => some ([], rest)
  | '\\' :: e :: rest =>
    let dec : Option Char := match e with
      | '"' => some '"'
      | '\\' => some '\\'
      | '/' => some '/'
      | 'n' => some '\n'
      | 't' => some '\t'
      | 'r' => some '\r'
      | _ => none
    match dec with
    | some c => (jsonReadStr rest).map (fun pr => (c :: pr.1, pr.2))
    | none => none
  | c :: rest => (jsonReadStr rest).map (fun pr => (c :: pr.1, pr.2))

mutual

/-- Fueled JSON value reader. -/
def jsonReadVal : Nat → List Char → Option (Json × List Char)
  | 0, _ => none
  | fuel + 1, l =>
    match jsonSkipWs l with
    | 'n' :: 'u' :: 'l' :: 'l' :: rest => some (Json.null, rest)
    | 't' :: 'r' :: 'u' :: 'e' :: rest => some (Json.bool true, rest)
    | 'f' :: 'a' :: 'l' :: 's' :: 'e' :: rest => some (Json.bool false, rest)
    | '"' :: rest =>
      (jsonReadStr rest).map (fun pr => (Json.str (String.mk pr.1), pr.2))
    | '[' :: rest =>
      (match jsonSkipWs rest with
       | ']' :: r2 => some (Json.arr [], r2)
       | r2 => jsonReadArr fuel r2 [])
    | '-' :: rest =>
      let ds := rest.takeWhile Char.isDigit
      if ds.isEmpty then none
      else some (Json.num (-(digitsToNat ds : Int)), rest.drop ds.length)
    | c :: rest =>
      if c = Char.ofNat 123 then
        match jsonSkipWs rest with
        | r2 =>
          if r2.head? = some (Char.ofNat 125) then some (Json.obj [], r2.tail)
          else jsonReadObj fuel r2 []
      else if c.isDigit then
        let ds := (c :: rest).takeWhile Char.isDigit
        some (Json.num (digitsToNat ds : Int), (c :: rest).drop ds.length)
      else none
    | [] => none

/-- Fueled JSON array elements reader (after the opening bracket, for a
non-empty array). -/
def jsonReadArr : Nat → List Char → List Json → Option (Json × List Char)
  | 0, _, _ => none
  | fuel + 1, l, acc =>
    match jsonReadVal fuel l with
    | none => none
    | some (v, rest) =>
      match jsonSkipWs rest with
      | ',' :: r2 => jsonReadArr fuel r2 (acc ++ [v])
      | ']' :: r2 => some (Json.arr (acc ++ [v]), r2)
      | _ => none

/-- Fueled JSON object members reader (after the opening brace, for a
non-empty object). -/
def jsonReadObj : Nat → List Char → List (String × Json) → Option (Json × List Char)
  | 0, _, _ => none
  | fuel + 1, l, acc =>
    match jsonSkipWs l with
    | '"' :: rest =>
      match jsonReadStr rest with
      | none => none
      | some (k, r2) =>
        match jsonSkipWs r2 with
        | ':' :: r3 =>
          match jsonReadVal fuel r3 with
          | none => none
          | some (v, r4) =>
            match jsonSkipWs r4 with
            | ',' :: r5 => jsonReadObj fuel r5 (acc ++ [(String.mk k, v)])
            | r5 =>
              if r5.head? = some (Char.ofNat 125) then
                some (Json.obj (acc ++ [(String.mk k, v)]), r5.tail)
              else none
        | _ => none
    | _ => none

end

/-- Model of Go `json.Unmarshal` on the byte strings the vmess parser
feeds it: a single JSON document followed only by whitespace. -/
def jsonParse (l : List Char) : Option Json :=
  match jsonReadVal (l.length + 1) l with
  | some (j, rest) => if (jsonSkipWs rest).isEmpty then some j else none
  | none => none

/-- Go map lookup on an unmarshalled object: with duplicate keys the last
occurrence wins, as in `encoding/json`. -/
def jLookupMap (kvs : List (String × Json)) (k : String) : Option Json :=
  ((kvs.filter (fun p => p.1 = k)).map (fun p => p.2)).getLast?

/-- The `m[key].(string)` type-asserted read used by parseVMessURL. -/
def jGetStr (kvs : List (String × Json)) (k : String) : Option String :=
  match jLookupMap kvs k with
  | some (Json.str v) => some v
  | _ => none

/-- The `m[key].(float64)` type-asserted read used for the vmess port. -/
def jGetNum (kvs : List (String × Json)) (k : String) : Option Int :=
  match jLookupMap kvs k with
  | some (Json.num v) => some v
  | _ => none

/-- parseVMessURL of subscription.go: `vmess://base64(JSON)`, standard
alphabet only, mapping ps/add/port/id/net/tls into the Node. -/
def parseVMessURL (s : String) : Except String Node :=
  let enc := trimHead "vmess://".toList s.toList
  match base64Decode b64DigitStd enc with
  | none => Except.error "failed to decode vmess URL"
  | some bs =>
    match jsonParse (bs.map Char.ofNat) with
    | some (Json.obj kvs) =>
      Except.ok
        { type := "vmess",
          name := (jGetStr kvs "ps").getD "",
          server := (jGetStr kvs "add").getD "",
          port := (jGetNum kvs "port").getD 0,
          uuid := (jGetStr kvs "id").getD "",
          network := (jGetStr kvs "net").getD "",
          tls := (jGetStr kvs "tls").getD "" }
    | _ => Except.error "failed to parse vmess config"

/-- YAMLProxy mirrors the `YAMLProxy` struct of subscription.go. -/
structure YAMLProxy where
  name : String := ""
  server : String := ""
  port : Int := 0
  type : String := ""
  password : String := ""
  uuid : String := ""
  cipher : String := ""
  sni : String := ""
  network : String := ""
  skipCertVerify : Bool := false
  udp : Bool := false
deriving DecidableEq, Repr

/-- YAMLConfig mirrors the `YAMLConfig` struct of subscription.go. -/
structure YAMLConfig where
  proxies : List YAMLProxy := []
deriving DecidableEq, Repr

/-- The per-proxy body of parseYAMLSubscription's loop: entries with an
empty server or a zero port are skipped, the rest are mapped kind-wise. -/
def yamlProxyToNode (proxy : YAMLProxy) : Option Node :=
  if proxy.server = "" ∨ proxy.port = 0 then none
  else
    let base : Node :=
      { name := proxy.name, type := proxy.type,
        server := proxy.server, port := proxy.port }
    some
      (if proxy.type = "trojan" then
        { base with password := proxy.password,
                    sni := if proxy.sni = "" then proxy.server else proxy.sni }
      else if proxy.type = "vmess" then
        { base with uuid := proxy.uuid, network := proxy.network }
      else if proxy.type = "vless" then
        { base with uuid := proxy.uuid, network := proxy.network }
      else if proxy.type = "ss" ∨ proxy.type = "shadowsocks" then
        { base with password := proxy.password, security := proxy.cipher }
      else base)

/-- parseYAMLSubscription of subscription.go, with the `yaml.Unmarshal`
library call injected as `um` (`none` models an unmarshal error). -/
def parseYAMLSubscription (um : String → Option YAMLConfig) (content : String) :
    Except String (List Node) :=
  match um content with
  | none => Except.error "failed to parse YAML"
  | some config =>
    if config.proxies.isEmpty then Except.error "no proxies found in YAML config"
    else if (config.proxies.filterMap yamlProxyToNode).isEmpty then
      Except.error "no valid proxy nodes found in YAML config"
    else Except.ok (config.proxies.filterMap yamlProxyToNode)

/-- The scheme dispatch of parseSubscription's line loop. -/
def parseLinkLine (line : List Char) : Option Node :=
  if startsWithL "vmess://".toList line then (parseVMessURL (String.mk line)).toOption
  else if startsWithL "vless://".toList line then (parseVLessURL (String.mk line)).toOption
  else if startsWithL "trojan://".toList line then (parseTrojanURL (String.mk line)).toOption
  else if startsWithL "ss://".toList line then (parseShadowsocksURL (String.mk line)).toOption
  else none

/-- The URL-format half of parseSubscription: split into lines, trim each,
skip empty lines, collect the lines that parse. -/
def linkNodes (content : String) : List Node :=
  ((splitAll '\n' content.toList).map trimSpaceL).filterMap
    (fun line => if line.isEmpty then none else parseLinkLine line)

/-- The tail of parseSubscription: zero collected link nodes is an error. -/
def linkListParse (content : String) : Except String (List Node) :=
  if (linkNodes content).isEmpty then
    Except.error "no valid nodes found in subscription"
  else Except.ok (linkNodes content)

/-- The YAML-format detection of parseSubscription. -/
def hasYamlMarker (content : String) : Bool :=
  containsL content.toList "proxies:".toList ||
    containsL content.toList "- \x7bname:".toList

/-- parseSubscription of subscription.go: advisory YAML detection with
fall-through to the link-list interpretation. -/
def parseSubscription (um : String → Option YAMLConfig) (content : String) :
    Except String (List Node) :=
  if hasYamlMarker content then
    match parseYAMLSubscription um content with
    | Except.ok nodes =>
      if 0 < nodes.length then Except.ok nodes else linkListParse content
    | Except.error _ => linkListParse content
  else linkListParse content

/-- The nodes the YAML interpretation contributes inside parseSubscription:
empty unless the marker is present and the YAML parse produced nodes. -/
def yamlAttempt (um : String → Option YAMLConfig) (content : String) : List Node :=
  if hasYamlMarker content then
    match parseYAMLSubscription um content with
    | Except.ok nodes => nodes
    | Except.error _ => []
  else []

/-- TestLatency of subscription.go, with the `net.DialTimeout` outcome
injected: `none` is a dial failure, `some t` a success after `t`
milliseconds. Returns the updated node and whether a non-nil error was
returned to the caller. -/
def testLatency (dial : Option Nat) (n : Node) : Node × Bool :=
  match dial with
  | none => ({ n with latency := -1 }, true)
  | some t => ({ n with latency := (t : Int) }, false)

/-- The `int(^uint(0) >> 1)` initial minimum of SelectFastestNode. -/
def maxGoInt : Int := 9223372036854775807

/-- The scanning loop of SelectFastestNode over the injected per-node dial
outcomes: a dial failure is skipped via `continue` (the node's latency is
the `-1` sentinel), a success participates in the strict minimum. -/
def selectLoop : List (Option Nat) → Nat → Int → Option Nat → Option Nat
  | [], _, _, best => best
  | none :: rest, idx, minLat, best => selectLoop rest (idx + 1) minLat best
  | some t :: rest, idx, minLat, best =>
    if (t : Int) < minLat then selectLoop rest (idx + 1) (t : Int) (some idx)
    else selectLoop rest (idx + 1) minLat best

/-- SelectFastestNode of subscription.go, with each node's probe outcome
injected by position; returns the index of the selected node. -/
def selectFastestNode (probes : List (Option Nat)) : Except String Nat :=
  if probes.length = 0 then Except.error "no nodes available"
  else
    match selectLoop probes 0 maxGoInt none with
    | none => Except.error "no reachable nodes found"
    | some i => Except.ok i

/-- The relative-index form of the selection loop, used to reason about
`selectLoop`. -/
def bestOf : List (Option Nat) → Int → Option Nat
  | [], _ => none
  | none :: rest, minLat => (bestOf rest minLat).map (· + 1)
  | some t :: rest, minLat =>
    if (t : Int) < minLat then
      match bestOf rest (t : Int) with
      | none => some 0
      | some k => some (k + 1)
    else (bestOf rest minLat).map (· + 1)

/-- The source-trying loop shared by Download and downloadGeoData of
xray.go, with each source's outcome injected: scans the outcomes, breaks
at the first success, and records the last failure in `lastErr` (which a
later success does not clear). Returns whether a download succeeded and
the final value of `lastErr`. -/
def dlLoop : List (Except String Unit) → Option String → Bool × Option String
  | [], lastErr => (false, lastErr)
  | Except.ok _ :: _, lastErr => (true, lastErr)
  | Except.error e :: rest, _ => dlLoop rest (some e)

/-- The binary-download section of Download (xray.go lines 79-97): after
the loop, a non-nil `lastErr` is surfaced as the aggregated error even
when the loop broke on a success. Returns whether the binary was
installed and the error surfaced to the caller. -/
def downloadBinary (outcomes : List (Except String Unit)) : Bool × Option String :=
  let r := dlLoop outcomes none
  match r.2 with
  | some e => (r.1, some ("failed to download from all sources: " ++ e))
  | none => (r.1, none)

/-- The supervisor state Stop reads, with process-control outcomes
injected: whether `x.cmd` and `x.cmd.Process` are non-nil, whether the
in-memory `Process.Kill` returns nil, the PID file's content when it is
readable, and whether the PID-file-path kill returns nil. -/
structure StopEnv where
  cmdPresent : Bool
  killCmdOk : Bool
  pidFileContent : Option String
  killPidOk : Bool
deriving DecidableEq, Repr

/-- Observable outcome of Stop: whether `os.Remove(pidFile)` was reached
and the error value returned to the caller. -/
structure StopResult where
  pidFileRemoved : Bool
  error : Option String
deriving DecidableEq, Repr

/-- Stop of xray.go: the in-memory-handle path returns early on a Kill
error; the PID-file path parses the PID and tolerates a Kill failure;
both surviving paths fall through to removing the PID file. -/
def stop (e : StopEnv) : StopResult :=
  if e.cmdPresent then
    if e.killCmdOk then { pidFileRemoved := true, error := none }
    else { pidFileRemoved := false, error := some "failed to stop Xray-core" }
  else
    match e.pidFileContent with
    | some data =>
      let pid := sscanfInt data.toList
      if 0 < pid then
        { pidFileRemoved := true, error := none }
      else
        { pidFileRemoved := true, error := none }
    | none => { pidFileRemoved := true, error := none }

/-- generateRoutingRules of xray.go. -/
def generateRoutingRules : Json :=
  Json.obj
    [("domainStrategy", Json.str "IPIfNonMatch"),
     ("rules", Json.arr
       [Json.obj [("type", Json.str "field"),
                  ("ip", Json.arr [Json.str "geoip:private"]),
                  ("outboundTag", Json.str "direct")],
        Json.obj [("type", Json.str "field"),
                  ("ip", Json.arr [Json.str "geoip:cn"]),
                  ("outboundTag", Json.str "direct")],
        Json.obj [("type", Json.str "field"),
                  ("domain", Json.arr [Json.str "geosite:cn"]),
                  ("outboundTag", Json.str "direct")]])]

/-- generateDirectOutbound of xray.go. -/
def generateDirectOutbound : Json :=
  Json.obj
    [("tag", Json.str "direct"),
     ("protocol", Json.str "freedom"),
     ("settings", Json.obj [])]

/-- The inbound block shared by every generated configuration. -/
def generateInbounds (localPort : Int) : Json :=
  Json.arr
    [Json.obj [("port", Json.num localPort),
               ("protocol", Json.str "socks"),
               ("settings", Json.obj [("udp", Json.bool true)])]]

/-- generateVMessConfig of xray.go. -/
def generateVMessConfig (localPort : Int) (n : Node) : Json :=
  let proxyOutbound : Json :=
    Json.obj
      [("tag", Json.str "proxy"),
       ("protocol", Json.str "vmess"),
       ("settings", Json.obj
         [("vnext", Json.arr
           [Json.obj
             [("address", Json.str n.server),
              ("port", Json.num n.port),
              ("users", Json.arr
                [Json.obj [("id", Json.str n.uuid),
                           ("alterId", Json.num 0),
                           ("security", Json.str "auto")]])]])])]
  Json.obj
    [("inbounds", generateInbounds localPort),
     ("outbounds", Json.arr [proxyOutbound, generateDirectOutbound]),
     ("routing", generateRoutingRules)]

/-- generateVLessConfig of xray.go. -/
def generateVLessConfig (localPort : Int) (n : Node) : Json :=
  let proxyOutbound : Json :=
    Json.obj
      [("tag", Json.str "proxy"),
       ("protocol", Json.str "vless"),
       ("settings", Json.obj
         [("vnext", Json.arr
           [Json.obj
             [("address", Json.str n.server),
              ("port", Json.num n.port),
              ("users", Json.arr
                [Json.obj [("id", Json.str n.uuid),
                           ("encryption", Json.str "none")]])]])])]
  Json.obj
    [("inbounds", generateInbounds localPort),
     ("outbounds", Json.arr [proxyOutbound, generateDirectOutbound]),
     ("routing", generateRoutingRules)]

/-- generateTrojanConfig of xray.go: the SNI defaults to the server when
unset, and the TLS stream settings are fixed. -/
def generateTrojanConfig (localPort : Int) (n : Node) : Json :=
  let sni := if n.sni = "" then n.server else n.sni
  let proxyOutbound : Json :=
    Json.obj
      [("tag", Json.str "proxy"),
       ("protocol", Json.str "trojan"),
       ("settings", Json.obj
         [("servers", Json.arr
           [Json.obj [("address", Json.str n.server),
                      ("port", Json.num n.port),
                      ("password", Json.str n.password)]])]),
       ("streamSettings", Json.obj
         [("network", Json.str "tcp"),
          ("security", Json.str "tls"),
          ("tlsSettings", Json.obj
            [("serverName", Json.str sni),
             ("allowInsecure", Json.bool false),
             ("alpn", Json.arr [Json.str "h2", Json.str "http/1.1"]),
             ("disableSystemRoot", Json.bool false),
             ("enableSessionResumption", Json.bool true)])])]
  Json.obj
    [("inbounds", generateInbounds localPort),
     ("outbounds", Json.arr [proxyOutbound, generateDirectOutbound]),
     ("routing", generateRoutingRules)]

/-- generateShadowsocksConfig of xray.go. -/
def generateShadowsocksConfig (localPort : Int) (n : Node) : Json :=
  let proxyOutbound : Json :=
    Json.obj
      [("tag", Json.str "proxy"),
       ("protocol", Json.str "shadowsocks"),
       ("settings", Json.obj
         [("servers", Json.arr
           [Json.obj [("address", Json.str n.server),
                      ("port", Json.num n.port),
                      ("method", Json.str n.security),
                      ("password", Json.str n.password)]])])]
  Json.obj
    [("inbounds", generateInbounds localPort),
     ("outbounds", Json.arr [proxyOutbound, generateDirectOutbound]),
     ("routing", generateRoutingRules)]

/-- The kind dispatch of GenerateConfig (xray.go lines 451-465): the Go
switch on `node.Type` as a sequence of equality tests; only the literal
"ss" names the shadowsocks generator. -/
def generateConfigDoc (localPort : Int) (n : Node) : Except String Json :=
  if n.type = "vmess" then Except.ok (generateVMessConfig localPort n)
  else if n.type = "vless" then Except.ok (generateVLessConfig localPort n)
  else if n.type = "trojan" then Except.ok (generateTrojanConfig localPort n)
  else if n.type = "ss" then Except.ok (generateShadowsocksConfig localPort n)
  else Except.error ("unsupported node type: " ++ n.type)

/-- GenerateConfig of xray.go including its file write, over an injected
config-file state (`fs` is the current content of config.json, replaced
on the success path; `json.MarshalIndent` cannot fail on these
map-of-basic-value documents). Returns the error surfaced to the caller
and the resulting file state. -/
def generateConfigFile (localPort : Int) (n : Node) (fs : Option Json) :
    Option String × Option Json :=
  match generateConfigDoc localPort n with
  | Except.error e => (some e, fs)
  | Except.ok cfg => (none, some cfg)

/-- Object-field lookup in a generated configuration document (keys are
unique in every document the generators build). -/
def jGet (k : String) : Json → Option Json
  | Json.obj kvs => (kvs.find? (fun p => p.1 = k)).map (fun p => p.2)
  | _ => none

/-- Array indexing in a generated configuration document. -/
def jIdx (i : Nat) : Json → Option Json
  | Json.arr xs => xs[i]?
  | _ => none

/-- The TLS stream settings object of a generated configuration. -/
def tlsSettingsOf (doc : Json) : Option Json :=
  (((jGet "outbounds" doc).bind (jIdx 0)).bind (jGet "streamSettings")).bind
    (jGet "tlsSettings")

theorem mem_of_getElemOpt {α : Type} {l : List α} {j : Nat} {a : α}
    (h : l[j]? = some a) : a ∈ l := by
  obtain ⟨hj, heq⟩ := List.getElem?_eq_some.mp h
  exact heq ▸ List.getElem_mem _

theorem selectLoop_eq_bestOf (ps : List (Option Nat)) (idx : Nat) (minLat : Int)
    (best : Option Nat) :
    selectLoop ps idx minLat best =
      match bestOf ps minLat with
      | none => best
      | some k => some (idx + k) := by
  induction ps generalizing idx minLat best with
  | nil => rfl
  | cons p rest ih =>
    cases p with
    | none =>
      simp only [selectLoop, bestOf]
      rw [ih]
      cases hb : bestOf rest minLat with
      | none => simp
      | some k => simp; omega
    | some t =>
      by_cases hlt : (t : Int) < minLat
      · simp only [selectLoop, bestOf, if_pos hlt]
        rw [ih]
        cases hb : bestOf rest (t : Int) with
        | none => simp
        | some k => simp; omega
      · simp only [selectLoop, bestOf, if_neg hlt]
        rw [ih]
        cases hb : bestOf rest minLat with
        | none => simp
        | some k => simp; omega

theorem bestOf_eq_none_iff (ps : List (Option Nat)) (minLat : Int) :
    bestOf ps minLat = none ↔ ∀ (j t : Nat), ps[j]? = some (some t) → minLat ≤ (t : Int) := by
  induction ps generalizing minLat with
  | nil => simp [bestOf]
  | cons p rest ih =>
    cases p with
    | none =>
      simp only [bestOf, Option.map_eq_none']
      rw [ih]
      constructor
      · intro h j t hj
        cases j with
        | zero => simp at hj
        | succ j => exact h j t (by simpa using hj)
      · intro h j t hj
        exact h (j + 1) t (by simpa using hj)
    | some u =>
      by_cases hlt : (u : Int) < minLat
      · simp only [bestOf, if_pos hlt]
        constructor
        · intro h
          cases hb : bestOf rest (u : Int) <;> rw [hb] at h <;> simp at h
        · intro h
          exfalso
          have := h 0 u (by simp)
          omega
      · simp only [bestOf, if_neg hlt, Option.map_eq_none']
        rw [ih]
        constructor
        · intro h j t hj
          cases j with
          | zero =>
            simp at hj
            subst hj
            omega
          | succ j => exact h j t (by simpa using hj)
        · intro h j t hj
          exact h (j + 1) t (by simpa using hj)

theorem bestOf_eq_some_spec (ps : List (Option Nat)) (minLat : Int) (k : Nat)
    (h : bestOf ps minLat = some k) :
    ∃ t : Nat, ps[k]? = some (some t) ∧ (t : Int) < minLat ∧
      (∀ (j u : Nat), ps[j]? = some (some u) → (u : Int) < minLat → t ≤ u) ∧
      (∀ (j u : Nat), j < k → ps[j]? = some (some u) → (u : Int) < minLat → t < u) := by
  induction ps generalizing minLat k with
  | nil => simp [bestOf] at h
  | cons p rest ih =>
    cases p with
    | none =>
      simp only [bestOf] at h
      cases hb : bestOf rest minLat with
      | none => rw [hb] at h; simp at h
      | some k0 =>
        rw [hb] at h
        simp at h
        obtain ⟨t, h1, h2, h3, h4⟩ := ih minLat k0 hb
        refine ⟨t, ?_, h2, ?_, ?_⟩
        · rw [← h]; simpa using h1
        · intro j u hj hu
          cases j with
          | zero => simp at hj
          | succ j => exact h3 j u (by simpa using hj) hu
        · intro j u hjk hj hu
          cases j with
          | zero => simp at hj
          | succ j =>
            have : j < k0 := by omega
            exact h4 j u this (by simpa using hj) hu
    | some v =>
      by_cases hlt : (v : Int) < minLat
      · simp only [bestOf, if_pos hlt] at h
        cases hb : bestOf rest (v : Int) with
        | none =>
          rw [hb] at h
          simp at h
          subst h
          have hall := (bestOf_eq_none_iff rest (v : Int)).mp hb
          refine ⟨v, by simp, hlt, ?_, ?_⟩
          · intro j u hj _
            cases j with
            | zero => simp at hj; omega
            | succ j =>
              have := hall j u (by simpa using hj)
              omega
          · intro j u hjk _ _
            omega
        | some k0 =>
          rw [hb] at h
          simp at h
          obtain ⟨t, h1, h2, h3, h4⟩ := ih (v : Int) k0 hb
          refine ⟨t, ?_, by omega, ?_, ?_⟩
          · rw [← h]; simpa using h1
          · intro j u hj hu
            cases j with
            | zero =>
              simp at hj
              subst hj
              omega
            | succ j =>
              by_cases hvu : (u : Int) < (v : Int)
              · exact h3 j u (by simpa using hj) hvu
              · omega
          · intro j u hjk hj hu
            cases j with
            | zero =>
              simp at hj
              subst hj
              omega
            | succ j =>
              have hj0 : j < k0 := by omega
              by_cases hvu : (u : Int) < (v : Int)
              · exact h4 j u hj0 (by simpa using hj) hvu
              · omega
      · simp only [bestOf, if_neg hlt] at h
        cases hb : bestOf rest minLat with
        | none => rw [hb] at h; simp at h
        | some k0 =>
          rw [hb] at h
          simp at h
          obtain ⟨t, h1, h2, h3, h4⟩ := ih minLat k0 hb
          refine ⟨t, ?_, h2, ?_, ?_⟩
          · rw [← h]; simpa using h1
          · intro j u hj hu
            cases j with
            | zero => simp at hj; subst hj; omega
            | succ j => exact h3 j u (by simpa using hj) hu
          · intro j u hjk hj hu
            cases j with
            | zero => simp at hj; subst hj; omega
            | succ j =>
              have : j < k0 := by omega
              exact h4 j u this (by simpa using hj) hu

/-- C1: SelectFastestNode probes the nodes in source order, fails exactly
when the subscription has zero nodes or every probe fails, and otherwise
returns the first node attaining the minimum latency among nodes whose
probe succeeded (latency >= 0); the strict less-than comparison makes the
earliest node at the minimum win ties. Probe outcomes are injected by
position (`none` = unreachable, latency -1; `some t` = latency t). -/
theorem selectFastestNode_first_min (probes : List (Option Nat))
    (hb : ∀ t, some t ∈ probes → (t : Int) < maxGoInt) :
    ((∃ e, selectFastestNode probes = Except.error e) ↔ ∀ p ∈ probes, p = none) ∧
    (∀ i, selectFastestNode probes = Except.ok i →
      ∃ t : Nat, probes[i]? = some (some t) ∧
        (∀ (j u : Nat), probes[j]? = some (some u) → t ≤ u) ∧
        (∀ (j u : Nat), j < i → probes[j]? = some (some u) → t < u)) := by
  have hsel : ∀ i, selectLoop probes 0 maxGoInt none = some i ↔ bestOf probes maxGoInt = some i := by
    intro i
    rw [selectLoop_eq_bestOf]
    cases hb0 : bestOf probes maxGoInt <;> simp
  constructor
  · constructor
    · rintro ⟨e, he⟩ p hp
      by_cases hemp : probes.length = 0
      · rw [List.length_eq_zero] at hemp
        subst hemp
        simp at hp
      · simp only [selectFastestNode, if_neg hemp] at he
        cases hl : selectLoop probes 0 maxGoInt none with
        | some i => rw [hl] at he; simp at he
        | none =>
          rw [selectLoop_eq_bestOf] at hl
          cases p with
          | none => rfl
          | some t =>
            exfalso
            cases hb0 : bestOf probes maxGoInt with
            | some k => rw [hb0] at hl; simp at hl
            | none =>
              have hall := (bestOf_eq_none_iff probes maxGoInt).mp hb0
              obtain ⟨j, hj⟩ := List.getElem?_of_mem hp
              have h1 := hall j t hj
              have h2 := hb t hp
              omega
    · intro h
      by_cases hemp : probes.length = 0
      · exact ⟨"no nodes available", by simp [selectFastestNode, hemp]⟩
      · refine ⟨"no reachable nodes found", ?_⟩
        simp only [selectFastestNode, if_neg hemp]
        have hnone : bestOf probes maxGoInt = none := by
          rw [bestOf_eq_none_iff]
          intro j t hj
          have := h _ (mem_of_getElemOpt hj)
          simp at this
        rw [selectLoop_eq_bestOf, hnone]
  · intro i hi
    by_cases hemp : probes.length = 0
    · simp [selectFastestNode, hemp] at hi
    · simp only [selectFastestNode, if_neg hemp] at hi
      cases hl : selectLoop probes 0 maxGoInt none with
      | none => rw [hl] at hi; simp at hi
      | some k =>
        rw [hl] at hi
        simp at hi
        rw [hi] at hl
        have hbk : bestOf probes maxGoInt = some i := (hsel i).mp hl
        obtain ⟨t, h1, _, h3, h4⟩ := bestOf_eq_some_spec probes maxGoInt i hbk
        refine ⟨t, h1, ?_, ?_⟩
        · intro j u hj
          exact h3 j u hj (hb u (mem_of_getElemOpt hj))
        · intro j u hjk hj
          exact h4 j u hjk hj (hb u (mem_of_getElemOpt hj))

/-- C1 witness: for probe latencies (50, unreachable, 10) the third node
is selected, for (10, unreachable, 10) the first; the general theorem is
applied at the first of those inputs. -/
theorem selectFastestNode_first_min_witness :
    selectFastestNode [some 50, none, some 10] = Except.ok 2 ∧
    selectFastestNode [some 10, none, some 10] = Except.ok 0 ∧
    (∃ t : Nat, [some 50, none, some (10 : Nat)][(2 : Nat)]? = some (some t) ∧
      (∀ (j u : Nat), [some 50, none, some (10 : Nat)][j]? = some (some u) → t ≤ u) ∧
      (∀ (j u : Nat), j < 2 → [some 50, none, some (10 : Nat)][j]? = some (some u) → t < u)) := by
  refine ⟨by rfl, by rfl, ?_⟩
  refine (selectFastestNode_first_min [some 50, none, some 10] ?_).2 2 (by rfl)
  intro t ht
  simp [maxGoInt] at ht ⊢
  rcases ht with h | h <;> subst h <;> omega

/-- C9: TestLatency records the probe outcome on the node: a dial failure
sets the -1 sentinel, a success sets the elapsed milliseconds, which is
never negative. The function is total, so every outcome is recorded. -/
theorem testLatency_records (n : Node) (t : Nat) :
    (testLatency none n).1.latency = -1 ∧
    (testLatency (some t) n).1.latency = (t : Int) ∧
    0 ≤ (testLatency (some t) n).1.latency := by
  refine ⟨rfl, rfl, ?_⟩
  simp only [testLatency]
  omega

/-- C2: when the first download source fails with HTTP 404 and the second
succeeds, the Download loop installs the binary yet still surfaces the
aggregated error, because a success never clears `lastErr`. -/
theorem downloadBinary_midway_failure_returns_error :
    downloadBinary [Except.error "HTTP 404", Except.ok ()] =
      (true, some "failed to download from all sources: HTTP 404") := rfl

/-- C6 counterexample: with an in-memory process handle whose Kill fails,
Stop returns an error and never reaches the PID-file removal. -/
theorem stop_inmemory_kill_failure_cex :
    stop { cmdPresent := true, killCmdOk := false,
           pidFileContent := some "123", killPidOk := false } =
      { pidFileRemoved := false, error := some "failed to stop Xray-core" } := rfl

/-- C6 (amended): Stop removes the PID file and reports no error exactly
when it is not on the in-memory-handle path with a failing Kill; in
particular the PID-file path tolerates a failed termination, while an
in-memory Kill failure is surfaced and skips the removal. -/
theorem stop_removal_and_error (e : StopEnv) :
    ((stop e).pidFileRemoved = true ↔ ¬(e.cmdPresent = true ∧ e.killCmdOk = false)) ∧
    ((stop e).error = none ↔ ¬(e.cmdPresent = true ∧ e.killCmdOk = false)) := by
  obtain ⟨c, k, pfc, kp⟩ := e
  cases c <;> cases k <;> cases pfc <;> simp [stop]

/-- C10: for a node of unsupported kind, GenerateConfig returns the error
from the kind dispatch before the marshal and write steps, leaving the
config file on disk unchanged. -/
theorem generateConfigFile_unsupported_leaves_file (lp : Int) (n : Node) (fs : Option Json)
    (h : n.type ≠ "vmess" ∧ n.type ≠ "vless" ∧ n.type ≠ "trojan" ∧ n.type ≠ "ss") :
    generateConfigFile lp n fs = (some ("unsupported node type: " ++ n.type), fs) := by
  unfold generateConfigFile generateConfigDoc
  rw [if_neg h.1, if_neg h.2.1, if_neg h.2.2.1, if_neg h.2.2.2]

/-- C10 witness: a node of kind "shadowsocks" (as the YAML parser emits)
is rejected with the file state untouched. -/
theorem generateConfigFile_unsupported_leaves_file_witness :
    generateConfigFile 1080 { type := "shadowsocks", server := "s", port := 443 }
        (some Json.null) =
      (some "unsupported node type: shadowsocks", some Json.null) := by
  exact generateConfigFile_unsupported_leaves_file 1080 _ _ (by decide)

/-- C8: every trojan configuration carries TLS stream settings whose
serverName is the node's sni when non-empty and the node's server
otherwise, with ALPN h2 and http/1.1, session resumption enabled, and
allowInsecure false. -/
theorem generateTrojanConfig_tls_settings (lp : Int) (n : Node) :
    tlsSettingsOf (generateTrojanConfig lp n) = some (Json.obj
      [("serverName", Json.str (if n.sni = "" then n.server else n.sni)),
       ("allowInsecure", Json.bool false),
       ("alpn", Json.arr [Json.str "h2", Json.str "http/1.1"]),
       ("disableSystemRoot", Json.bool false),
       ("enableSessionResumption", Json.bool true)]) := rfl

/-- C5: the YAML parser itself produces a node of kind "shadowsocks"
(mapping its password and cipher), and GenerateConfig's dispatch, which
only accepts the literal "ss", rejects that very node. -/
theorem yaml_shadowsocks_node_rejected_by_generator :
    parseYAMLSubscription
      (fun _ => some { proxies := [{ name := "n", server := "s", port := 443,
                                     type := "shadowsocks", password := "pw",
                                     cipher := "aes-128-gcm" }] }) "c" =
      Except.ok [{ name := "n", type := "shadowsocks", server := "s", port := 443,
                   password := "pw", security := "aes-128-gcm" }] ∧
    generateConfigDoc 1080 { name := "n", type := "shadowsocks", server := "s",
                             port := 443, password := "pw",
                             security := "aes-128-gcm" } =
      Except.error "unsupported node type: shadowsocks" := ⟨rfl, rfl⟩

/-- C3 counterexample: the link-list interpretation accepts
`vless://u@s:0` and returns a node whose port is 0, outside 1-65535, so
not every parsed node is well-formed. -/
theorem parse_wellformed_cex :
    parseSubscription (fun _ => none) "vless://u@s:0" =
      Except.ok [{ type := "vless", server := "s", port := 0, uuid := "u" }] ∧
    ¬(1 ≤ ({ type := "vless", server := "s", port := 0, uuid := "u" } : Node).port) :=
  ⟨rfl, by decide⟩

/-- C3 (amended): every node produced by the YAML interpretation has a
non-empty server and a nonzero port (entries failing that are dropped);
the link-list interpretation drops structurally malformed lines but does
not validate server or port. -/
theorem parseYAML_nodes_have_server_and_port (um : String → Option YAMLConfig)
    (content : String) (ns : List Node)
    (h : parseYAMLSubscription um content = Except.ok ns) :
    ∀ n ∈ ns, n.server ≠ "" ∧ n.port ≠ 0 := by
  intro n hn
  unfold parseYAMLSubscription at h
  split at h
  · simp at h
  · split at h
    · simp at h
    · split at h
      · simp at h
      · simp only [Except.ok.injEq] at h
        subst h
        obtain ⟨proxy, _, hpn⟩ := List.mem_filterMap.mp hn
        unfold yamlProxyToNode at hpn
        by_cases hskip : proxy.server = "" ∨ proxy.port = 0
        · rw [if_pos hskip] at hpn; simp at hpn
        · rw [if_neg hskip] at hpn
          simp only [Option.some.injEq] at hpn
          subst hpn
          push_neg at hskip
          constructor <;> split_ifs <;> simp [hskip.1, hskip.2]

/-- C3 witness: the amended theorem applied to a one-proxy YAML document
yields a node with non-empty server and nonzero port. -/
theorem parseYAML_nodes_have_server_and_port_witness :
    ({ name := "t", type := "trojan", server := "srv", port := 443,
       password := "p", sni := "srv" } : Node).server ≠ "" ∧
    ({ name := "t", type := "trojan", server := "srv", port := 443,
       password := "p", sni := "srv" } : Node).port ≠ 0 := by
  refine parseYAML_nodes_have_server_and_port
    (fun _ => some { proxies := [{ name := "t", server := "srv", port := 443,
                                   type := "trojan", password := "p" }] })
    "x" _ rfl _ ?_
  decide

theorem linkListParse_ok_ne_nil (content : String) (ns : List Node)
    (h : linkListParse content = Except.ok ns) : ns ≠ [] := by
  unfold linkListParse at h
  by_cases hemp : (linkNodes content).isEmpty
  · rw [if_pos hemp] at h; simp at h
  · rw [if_neg hemp] at h
    simp only [Except.ok.injEq] at h
    subst h
    simp only [List.isEmpty_eq_true] at hemp
    exact hemp

theorem linkListParse_error_iff (content : String) :
    (∃ e, linkListParse content = Except.error e) ↔ linkNodes content = [] := by
  unfold linkListParse
  by_cases hemp : (linkNodes content).isEmpty
  · simp only [if_pos hemp]
    simp only [List.isEmpty_eq_true] at hemp
    exact ⟨fun _ => hemp, fun _ => ⟨_, rfl⟩⟩
  · simp only [if_neg hemp]
    simp only [List.isEmpty_eq_true] at hemp
    constructor
    · rintro ⟨e, he⟩
      simp at he
    · intro hnil
      exact absurd hnil hemp

theorem parseSubscription_eq_of_yaml_ok (um : String → Option YAMLConfig)
    (content : String) (ys : List Node) (hm : hasYamlMarker content = true)
    (hy : parseYAMLSubscription um content = Except.ok ys) :
    parseSubscription um content =
      if 0 < ys.length then Except.ok ys else linkListParse content := by
  unfold parseSubscription
  rw [if_pos hm, hy]

theorem parseSubscription_eq_of_yaml_error (um : String → Option YAMLConfig)
    (content : String) (e0 : String) (hm : hasYamlMarker content = true)
    (hy : parseYAMLSubscription um content = Except.error e0) :
    parseSubscription um content = linkListParse content := by
  unfold parseSubscription
  rw [if_pos hm, hy]

theorem parseSubscription_eq_of_no_marker (um : String → Option YAMLConfig)
    (content : String) (hm : hasYamlMarker content = false) :
    parseSubscription um content = linkListParse content := by
  unfold parseSubscription
  rw [hm]
  rfl

theorem yamlAttempt_of_yaml_ok (um : String → Option YAMLConfig)
    (content : String) (ys : List Node) (hm : hasYamlMarker content = true)
    (hy : parseYAMLSubscription um content = Except.ok ys) :
    yamlAttempt um content = ys := by
  unfold yamlAttempt
  rw [if_pos hm, hy]

theorem yamlAttempt_of_yaml_error (um : String → Option YAMLConfig)
    (content : String) (e0 : String) (hm : hasYamlMarker content = true)
    (hy : parseYAMLSubscription um content = Except.error e0) :
    yamlAttempt um content = [] := by
  unfold yamlAttempt
  rw [if_pos hm, hy]

theorem yamlAttempt_of_no_marker (um : String → Option YAMLConfig)
    (content : String) (hm : hasYamlMarker content = false) :
    yamlAttempt um content = [] := by
  unfold yamlAttempt
  rw [hm]
  rfl

/-- C4: parseSubscription returns only a non-empty node sequence; when the
YAML marker is present but the YAML interpretation contributes zero
usable nodes, it falls through to the link-list interpretation; and it
fails exactly when both attempted interpretations yield zero nodes. -/
theorem parseSubscription_contract (um : String → Option YAMLConfig) (content : String) :
    (∀ ns, parseSubscription um content = Except.ok ns → ns ≠ []) ∧
    (hasYamlMarker content = true → yamlAttempt um content = [] →
      parseSubscription um content = linkListParse content) ∧
    ((∃ e, parseSubscription um content = Except.error e) ↔
      (yamlAttempt um content = [] ∧ linkNodes content = [])) := by
  by_cases hm : hasYamlMarker content = true
  · cases hy : parseYAMLSubscription um content with
    | ok ys =>
      rw [parseSubscription_eq_of_yaml_ok um content ys hm hy,
          yamlAttempt_of_yaml_ok um content ys hm hy]
      by_cases hlen : 0 < ys.length
      · rw [if_pos hlen]
        have hysne : ys ≠ [] := by
          intro hnil
          subst hnil
          simp at hlen
        refine ⟨?_, ?_, ?_⟩
        · intro ns hns
          simp only [Except.ok.injEq] at hns
          subst hns
          exact hysne
        · intro _ hya
          exact absurd hya hysne
        · constructor
          · rintro ⟨e, he⟩
            simp at he
          · rintro ⟨hya, _⟩
            exact absurd hya hysne
      · rw [if_neg hlen]
        have hysnil : ys = [] := by
          cases ys with
          | nil => rfl
          | cons a l => simp at hlen
        subst hysnil
        refine ⟨linkListParse_ok_ne_nil content, fun _ _ => rfl, ?_⟩
        rw [linkListParse_error_iff]
        simp
    | error e0 =>
      rw [parseSubscription_eq_of_yaml_error um content e0 hm hy,
          yamlAttempt_of_yaml_error um content e0 hm hy]
      refine ⟨linkListParse_ok_ne_nil content, fun _ _ => rfl, ?_⟩
      rw [linkListParse_error_iff]
      simp
  · have hm2 : hasYamlMarker content = false := by simpa using hm
    rw [parseSubscription_eq_of_no_marker um content hm2,
        yamlAttempt_of_no_marker um content hm2]
    refine ⟨linkListParse_ok_ne_nil content, ?_, ?_⟩
    · intro hmt
      exact absurd hmt (by simp [hm2])
    · rw [linkListParse_error_iff]
      simp

/-- C4 witness: a document carrying the YAML marker whose YAML parse
fails is parsed by the link-list interpretation. -/
theorem parseSubscription_contract_witness :
    parseSubscription (fun _ => none) "proxies:\nvless://u@s:443" =
      linkListParse "proxies:\nvless://u@s:443" :=
  (parseSubscription_contract (fun _ => none) "proxies:\nvless://u@s:443").2.1 rfl rfl

theorem startsWithL_self_append (p r : List Char) : startsWithL p (p ++ r) = true := by
  induction p with
  | nil => rfl
  | cons x xs ih => simp [startsWithL, ih]

theorem trimHead_self_append (p r : List Char) : trimHead p (p ++ r) = r := by
  rw [trimHead, if_pos (startsWithL_self_append p r)]
  exact List.drop_left p r

theorem splitFirst_eq_none {α : Type} [DecidableEq α] (c : α) (l : List α) (h : c ∉ l) :
    splitFirst c l = none := by
  induction l with
  | nil => rfl
  | cons x xs ih =>
    have hx : ¬x = c := fun he => h (he ▸ List.mem_cons_self x xs)
    simp only [splitFirst, if_neg hx,
      ih (fun hm => h (List.mem_cons_of_mem x hm)), Option.map_none']

theorem splitFirst_append_cons {α : Type} [DecidableEq α] (c : α) (l r : List α)
    (h : c ∉ l) : splitFirst c (l ++ c :: r) = some (l, r) := by
  induction l with
  | nil => simp [splitFirst]
  | cons x xs ih =>
    have hx : ¬x = c := fun he => h (he ▸ List.mem_cons_self x xs)
    simp only [List.cons_append, splitFirst, if_neg hx, List.append_eq,
      ih (fun hm => h (List.mem_cons_of_mem x hm)), Option.map_some']

/-- C7: a shadowsocks link whose credential segment fails standard-base64
decoding but decodes under the URL-safe alphabet still parses: the
decoded bytes are split at the first colon into method and password,
which populate the node's security and password fields. -/
theorem ss_urlsafe_fallback (s : String) (cred server portL : List Char)
    (bs m p : List Nat)
    (hs : s.toList = "ss://".toList ++ (cred ++ '@' :: (server ++ ':' :: portL)))
    (hstd : base64Decode b64DigitStd cred = none)
    (hurl : base64Decode b64DigitUrl cred = some bs)
    (hsplit : splitFirst (58 : Nat) bs = some (m, p))
    (hh1 : '#' ∉ cred) (hh2 : '#' ∉ server) (hh3 : '#' ∉ portL)
    (hat : '@' ∉ cred) (hcol : ':' ∉ server) :
    parseShadowsocksURL s = Except.ok
      { type := "ss", name := "", server := String.mk server,
        port := sscanfInt portL, password := bytesToString p,
        security := bytesToString m } := by
  have hnoHash : '#' ∉ cred ++ '@' :: (server ++ ':' :: portL) := by
    intro hmem
    rcases List.mem_append.mp hmem with hmm | hmm
    · exact hh1 hmm
    · rcases List.mem_cons.mp hmm with hmm | hmm
      · exact absurd hmm (by decide)
      · rcases List.mem_append.mp hmm with hmm | hmm
        · exact hh2 hmm
        · rcases List.mem_cons.mp hmm with hmm | hmm
          · exact absurd hmm (by decide)
          · exact hh3 hmm
  simp only [parseShadowsocksURL, hs, trimHead_self_append,
    splitFirst_eq_none '#' _ hnoHash, splitFirst_append_cons '@' cred _ hat,
    hstd, hurl, hsplit, splitFirst_append_cons ':' server _ hcol]

/-- C7 witness: the theorem applied to a concrete link whose credential
segment is URL-safe base64 (it contains a `-`, so standard decoding
fails) yielding method rc4-md5 and password hello?>. -/
theorem ss_urlsafe_fallback_witness :
    parseShadowsocksURL "ss://cmM0LW1kNTpoZWxsbz8-@example.com:8388" = Except.ok
      { type := "ss", name := "", server := "example.com", port := 8388,
        password := "hello?>", security := "rc4-md5" } := by
  have h := ss_urlsafe_fallback "ss://cmM0LW1kNTpoZWxsbz8-@example.com:8388"
    "cmM0LW1kNTpoZWxsbz8-".toList "example.com".toList "8388".toList
    [114, 99, 52, 45, 109, 100, 53, 58, 104, 101, 108, 108, 111, 63, 62]
    [114, 99, 52, 45, 109, 100, 53] [104, 101, 108, 108, 111, 63, 62]
    rfl rfl rfl rfl (by decide) (by decide) (by decide) (by decide) (by decide)
  exact h

end Crosh
